import Mathlib

/-!
Shallow embedding of the authentication subsystem of the Node backend
(controllers, services, repository, middleware). Pure functions of the
JavaScript source are translated to Lean functions; in-process mutable
state (the in-memory user store, the rate-limit map) is threaded
explicitly. JavaScript exceptions are modelled with Except; the
`executeOperation` boundary of BaseService maps them to success/failure
result values exactly as the source does.

External collaborators are modelled by their contracts, as the spec
directs: bcrypt digests carry the hashed plaintext together with a salt
tag (hash is salted and one way, verify compares the plaintext); the
jsonwebtoken library is modelled as a record of the signed payload,
the signing secret and the algorithm tag; the Joi email format check is
a parameter `ev : String → Bool` of every operation that validates an
email field (the remaining Joi checks — minimum lengths, the role
enumeration — are translated directly).
-/

namespace NodeBackend

/-- JavaScript values that appear in response objects. -/
inductive JValue where
  | str (s : String)
  | bool (b : Bool)
  | num (n : Nat)
  | null
deriving DecidableEq, Repr

/-- JavaScript truthiness for the values above ("" , false, 0 and null
are falsy). -/
def JValue.truthy : JValue → Bool
  | .str s => !(s == "")
  | .bool b => b
  | .num n => !(n == 0)
  | .null => false

/-- A JavaScript object, as an association list of fields in insertion
order (keys are unique in every object the embedding builds). -/
abbrev JObject := List (String × JValue)

/-- JavaScript String.prototype.toLowerCase, modelled character-wise
(the emails of this system are ASCII). -/
def jsToLower (s : String) : String :=
  String.mk (s.data.map Char.toLower)

/-- JavaScript String.prototype.trim, modelled as removal of leading
and trailing ASCII spaces. -/
def jsTrim (s : String) : String :=
  String.mk (((s.data.dropWhile (fun c => c == ' ')).reverse.dropWhile
    (fun c => c == ' ')).reverse)

/-- JavaScript Map.get: first binding of the key, if any. -/
def mapGet (m : List (String × α)) (k : String) : Option α :=
  (m.find? (fun p => p.1 == k)).map (fun p => p.2)

/-- JavaScript Map.set: replace the binding in place, or append a new one. -/
def mapSet (m : List (String × α)) (k : String) (v : α) : List (String × α) :=
  if m.any (fun p => p.1 == k) then
    m.map (fun p => if p.1 == k then (k, v) else p)
  else
    m ++ [(k, v)]

/-- JavaScript Map.delete: drop every binding of the key. -/
def mapDelete (m : List (String × α)) (k : String) : List (String × α) :=
  m.filter (fun p => !(p.1 == k))

/-- bcrypt digest, modelled by its contract: the digest determines the
hashed plaintext and a salt tag that makes hashing non-deterministic per
call. The serialized digest is a fixed-format 60-character string. -/
structure Digest where
  plaintext : String
  salt : Nat
deriving DecidableEq, Repr

/-- AuthenticationService.hashPassword via bcrypt.hash (the salt is the
random input drawn by bcrypt; the cost factor does not affect the
functional contract). -/
def hashPassword (password : String) (salt : Nat) : Digest :=
  { plaintext := password, salt := salt }

/-- AuthenticationService.comparePassword via bcrypt.compare: true
exactly when the plaintext matches the one the digest was created from. -/
def comparePassword (password : String) (digest : Digest) : Bool :=
  password == digest.plaintext

/-- A thrown JavaScript Error: a message, and an optional `code`
property (the plain `new Error(msg)` throws of this codebase carry no
code). -/
structure JsError where
  message : String
  code : Option String
deriving DecidableEq, Repr

/-- BaseService.handleError: sanitizes a caught error to an object with
the fields message, code and timestamp: the message defaults to the
generic unexpected-error text when empty, the code defaults to
INTERNAL_ERROR when absent or empty, and the timestamp (an ISO string in
the source) is the threaded time `now`. -/
def handleError (now : Nat) (e : JsError) : JObject :=
  [("message", .str (if e.message == "" then "An unexpected error occurred" else e.message)),
   ("code", .str (match e.code with
     | some c => if c == "" then "INTERNAL_ERROR" else c
     | none => "INTERNAL_ERROR")),
   ("timestamp", .num now)]

/-- Result of a service operation at the BaseService boundary:
either `{ success: true, data }` or `{ success: false, error }`. -/
inductive OpResult (α : Type) where
  | success (data : α)
  | failure (error : JObject)
deriving DecidableEq, Repr

/-- BaseService.executeOperation: runs the operation, returns its data on
success, and catches every thrown error, returning it sanitized. -/
def executeOperation (now : Nat) (op : Except JsError α) : OpResult α :=
  match op with
  | .ok v => .success v
  | .error e => .failure (handleError now e)

/-- The User entity (BaseEntity fields plus the User fields). The
password field stores the bcrypt digest, as the register flow persists
the hash. -/
structure User where
  id : String
  email : String
  password : Digest
  firstName : String
  lastName : String
  role : String
  isEmailVerified : Bool
  isActive : Bool
  lastLoginAt : Option Nat
  createdAt : Nat
  updatedAt : Nat
deriving DecidableEq, Repr

/-- User.getFullName. -/
def User.getFullName (u : User) : String :=
  jsTrim (u.firstName ++ " " ++ u.lastName)

/-- User.toPublicJSON: the public projection (no id, no password). -/
def User.toPublicJSON (u : User) : JObject :=
  [("email", .str u.email),
   ("firstName", .str u.firstName),
   ("lastName", .str u.lastName),
   ("role", .str u.role),
   ("isEmailVerified", .bool u.isEmailVerified),
   ("lastLoginAt", match u.lastLoginAt with
     | some t => .num t
     | none => .null),
   ("fullName", .str u.getFullName)]

/-- User.validate: the Joi schema on the entity fields. The password
field of a stored entity is a bcrypt digest whose 60-character
serialization always satisfies the min(8) check, so that conjunct is
identically true here. `ev` is the external Joi email format check. -/
def User.validate (ev : String → Bool) (u : User) : Bool :=
  ev u.email &&
  (2 ≤ u.firstName.length && u.firstName.length ≤ 50) &&
  (2 ≤ u.lastName.length && u.lastName.length ≤ 50) &&
  ["user", "admin", "moderator"].contains u.role

/-- BaseService.sanitizeOutput: removes the fields password, token,
secret and key from an object — each only when its value is truthy,
translating `if (sanitized[field]) delete sanitized[field]`. -/
def sanitizeOutput (data : JObject) : JObject :=
  data.filter (fun kv =>
    !(["password", "token", "secret", "key"].contains kv.1 && kv.2.truthy))

/-- The in-memory user store: the id-keyed user Map and the
lower-cased-email index Map. -/
structure InMemoryUserRepository where
  users : List (String × User)
  emailIndex : List (String × String)
deriving DecidableEq, Repr

namespace InMemoryUserRepository

/-- InMemoryUserRepository.findById. -/
def findById (r : InMemoryUserRepository) (id : String) : Option User :=
  mapGet r.users id

/-- InMemoryUserRepository.findByEmail: looks the lower-cased email up
in the index, then resolves the id in the user Map. -/
def findByEmail (r : InMemoryUserRepository) (email : String) : Option User :=
  match mapGet r.emailIndex (jsToLower email) with
  | some userId => mapGet r.users userId
  | none => none

/-- InMemoryUserRepository.create: validates the entity, rejects a
normalized email that is already indexed, then stores the user and
indexes its lower-cased email. Returns the new store with the created
user, or the thrown error. -/
def create (ev : String → Bool) (r : InMemoryUserRepository) (u : User) :
    Except JsError (InMemoryUserRepository × User) :=
  if !(u.validate ev) then
    .error { message := "Invalid user data", code := none }
  else
    match r.findByEmail u.email with
    | some _ => .error { message := "User with this email already exists", code := none }
    | none =>
        .ok ({ users := mapSet r.users u.id u,
               emailIndex := mapSet r.emailIndex (jsToLower u.email) u.id }, u)

/-- The updates object passed to InMemoryUserRepository.update. Only the
fields with a setter on the entity are listed: assigning one of the
getter-only fields (id is skipped explicitly; isEmailVerified,
lastLoginAt, createdAt, updatedAt have no setter) throws in the strict
mode source and no claim exercises that path. -/
structure Updates where
  email : Option String := none
  password : Option Digest := none
  firstName : Option String := none
  lastName : Option String := none
  role : Option String := none
  isActive : Option Bool := none
deriving DecidableEq, Repr

/-- The forEach loop of InMemoryUserRepository.update: assigns every
provided field through the entity setters, mutating the user in place. -/
def applyUpdates (u : User) (upd : Updates) : User :=
  { u with
    email := upd.email.getD u.email,
    password := upd.password.getD u.password,
    firstName := upd.firstName.getD u.firstName,
    lastName := upd.lastName.getD u.lastName,
    role := upd.role.getD u.role,
    isActive := upd.isActive.getD u.isActive }

/-- InMemoryUserRepository.update: finds the user, assigns the updates
in place, then runs `if (updates.email && updates.email !== user.email)`
to refresh the email index — against the already mutated user, so the
comparison is between the new email and itself. Finally touches the
updatedAt timestamp. Returns none when the id is unknown. -/
def update (r : InMemoryUserRepository) (now : Nat) (id : String) (upd : Updates) :
    Option (InMemoryUserRepository × User) :=
  match r.findById id with
  | none => none
  | some user0 =>
      let user1 := applyUpdates user0 upd
      let emailIndex1 :=
        match upd.email with
        | some e =>
            if !(e == "") && !(e == user1.email) then
              mapSet (mapDelete r.emailIndex (jsToLower user1.email)) (jsToLower e) id
            else r.emailIndex
        | none => r.emailIndex
      let user2 := { user1 with updatedAt := now }
      some ({ users := mapSet r.users id user2, emailIndex := emailIndex1 }, user2)

/-- InMemoryUserRepository.delete: removes the user and the index entry
of its current lower-cased email; false (none) when the id is unknown. -/
def delete (r : InMemoryUserRepository) (id : String) : Option InMemoryUserRepository :=
  match r.findById id with
  | none => none
  | some user =>
      some { users := mapDelete r.users id,
             emailIndex := mapDelete r.emailIndex (jsToLower user.email) }

end InMemoryUserRepository

/-- Environment configuration read by the authentication service. -/
structure Config where
  jwtSecret : Option String
  jwtExpiresIn : Option String := none
deriving DecidableEq, Repr

/-- The expiresIn string `process.env.JWT_EXPIRES_IN || '24h'`. -/
def Config.expiresInStr (cfg : Config) : String :=
  match cfg.jwtExpiresIn with
  | some s => if s == "" then "24h" else s
  | none => "24h"

/-- The JWT payload built by AuthenticationService.generateToken. -/
structure Payload where
  userId : String
  email : String
  role : String
  iat : Nat
  exp : Nat
deriving DecidableEq, Repr

/-- A signed token, modelling the jsonwebtoken contract: it determines
its payload, the secret it was signed with and the algorithm tag. -/
structure Token where
  payload : Payload
  secret : String
  alg : String
deriving DecidableEq, Repr

/-- AuthenticationService.generateToken: throws the configuration error
when JWT_SECRET is absent, otherwise signs the payload with userId,
email, role, iat = now and exp = now + 24 hours using HS256. -/
def generateToken (cfg : Config) (now : Nat) (u : User) : Except JsError Token :=
  match cfg.jwtSecret with
  | none => .error { message := "JWT_SECRET environment variable is required", code := none }
  | some secret =>
      .ok { payload := { userId := u.id, email := u.email, role := u.role,
                         iat := now, exp := now + 60 * 60 * 24 },
            secret := secret, alg := "HS256" }

/-- AuthenticationService.verifyToken: throws the configuration error
when JWT_SECRET is absent; otherwise jwt.verify restricted to HS256
rejects a foreign algorithm, a signature made with another secret, and
an expired token (jsonwebtoken expires a token once now ≥ exp), and
returns the decoded payload. -/
def verifyToken (cfg : Config) (now : Nat) (t : Token) : Except JsError Payload :=
  match cfg.jwtSecret with
  | none => .error { message := "JWT_SECRET environment variable is required", code := none }
  | some secret =>
      if !(t.alg == "HS256") then
        .error { message := "invalid algorithm", code := none }
      else if !(t.secret == secret) then
        .error { message := "invalid signature", code := none }
      else if t.payload.exp ≤ now then
        .error { message := "jwt expired", code := none }
      else
        .ok t.payload

/-- The AuthResult value produced by login, registration and refresh:
the sanitized public projection of the identity, the token, and the
expiresIn string. -/
structure AuthData where
  user : JObject
  token : Token
  expiresIn : String
deriving DecidableEq, Repr

/-- The Joi login schema of AuthenticationService.authenticate: email
format (external check `ev`) and password minimum length 8. -/
def validateLogin (ev : String → Bool) (email password : String) : Bool :=
  ev email && 8 ≤ password.length

/-- AuthenticationService.localStrategy: looks the email up, throws the
one generic credential error when the account is missing, inactive, or
the password does not verify; on success updates lastLoginAt (mutating
the stored user), issues a token and returns the AuthResult. The store
after whatever mutation happened is returned alongside. -/
def localStrategy (cfg : Config) (r : InMemoryUserRepository) (now : Nat)
    (email password : String) :
    Except JsError AuthData × InMemoryUserRepository :=
  match r.findByEmail email with
  | none => (.error { message := "Invalid credentials", code := none }, r)
  | some user =>
      if !user.isActive then
        (.error { message := "Invalid credentials", code := none }, r)
      else if !(comparePassword password user.password) then
        (.error { message := "Invalid credentials", code := none }, r)
      else
        let user1 := { user with lastLoginAt := some now, updatedAt := now }
        let r1 : InMemoryUserRepository :=
          { r with users := mapSet r.users user1.id user1 }
        match generateToken cfg now user1 with
        | .error e => (.error e, r1)
        | .ok tok =>
            (.ok { user := sanitizeOutput user1.toPublicJSON,
                   token := tok,
                   expiresIn := cfg.expiresInStr }, r1)

/-- AuthenticationService.authenticate: validates the input shape and
delegates to the local strategy, all inside executeOperation. -/
def authenticate (ev : String → Bool) (cfg : Config) (r : InMemoryUserRepository)
    (now : Nat) (email password : String) :
    OpResult AuthData × InMemoryUserRepository :=
  if !(validateLogin ev email password) then
    (executeOperation now (.error { message := "Invalid input data", code := none }), r)
  else
    let (res, r1) := localStrategy cfg r now email password
    (executeOperation now res, r1)

/-- The registration request body. -/
structure RegisterInput where
  email : String
  password : String
  firstName : String
  lastName : String
  role : Option String := none
deriving DecidableEq, Repr

/-- The Joi registration schema: email format, password min 8, name
fields 2 to 50 characters, role in the closed set with default user.
Returns the validated data (role defaulted) or none. -/
def validateRegister (ev : String → Bool) (d : RegisterInput) :
    Option (String × String × String × String × String) :=
  let roleOk : Option String :=
    match d.role with
    | none => some "user"
    | some ro => if ["user", "admin", "moderator"].contains ro then some ro else none
  match roleOk with
  | none => none
  | some ro =>
      if ev d.email && 8 ≤ d.password.length &&
         (2 ≤ d.firstName.length && d.firstName.length ≤ 50) &&
         (2 ≤ d.lastName.length && d.lastName.length ≤ 50) then
        some (d.email, d.password, d.firstName, d.lastName, ro)
      else none

/-- AuthenticationService.register: validates the input, hashes the
password (salt is the random input drawn by bcrypt), builds the User
entity (id is the random uuid, timestamps now, isActive true,
isEmailVerified false), saves it through the repository, issues a token,
and returns the AuthResult — all inside executeOperation. The store is
returned alongside: note that when token issuance fails the user has
already been persisted. -/
def register (ev : String → Bool) (cfg : Config) (r : InMemoryUserRepository)
    (now salt : Nat) (newId : String) (d : RegisterInput) :
    OpResult AuthData × InMemoryUserRepository :=
  match validateRegister ev d with
  | none =>
      (executeOperation now (.error { message := "Invalid input data", code := none }), r)
  | some (email, password, firstName, lastName, role) =>
      let user : User :=
        { id := newId, email := email,
          password := hashPassword password salt,
          firstName := firstName, lastName := lastName, role := role,
          isEmailVerified := false, isActive := true, lastLoginAt := none,
          createdAt := now, updatedAt := now }
      match InMemoryUserRepository.create ev r user with
      | .error e => (executeOperation now (.error e), r)
      | .ok (r1, savedUser) =>
          match generateToken cfg now savedUser with
          | .error e => (executeOperation now (.error e), r1)
          | .ok tok =>
              (executeOperation now
                (.ok { user := sanitizeOutput savedUser.toPublicJSON,
                       token := tok,
                       expiresIn := cfg.expiresInStr }), r1)

/-- AuthenticationService.refreshToken: verifies the token, re-fetches
the identity, throws the generic token error when it no longer exists or
is inactive, and issues a fresh token — all inside executeOperation. -/
def refreshToken (cfg : Config) (r : InMemoryUserRepository) (now : Nat) (t : Token) :
    OpResult AuthData × InMemoryUserRepository :=
  let inner : Except JsError AuthData :=
    match verifyToken cfg now t with
    | .error e => .error e
    | .ok decoded =>
        match r.findById decoded.userId with
        | none => .error { message := "Invalid token", code := none }
        | some user =>
            if !user.isActive then
              .error { message := "Invalid token", code := none }
            else
              match generateToken cfg now user with
              | .error e => .error e
              | .ok newTok =>
                  .ok { user := sanitizeOutput user.toPublicJSON,
                        token := newTok,
                        expiresIn := cfg.expiresInStr }
  (executeOperation now inner, r)

/-- The update request body accepted by UserService.updateUser. The Joi
schema also admits isEmailVerified, but the repository cannot apply it
(the entity exposes only a getter, so the strict mode assignment in
update throws); no claim exercises that field and it is omitted. -/
structure UpdateUserInput where
  email : Option String := none
  firstName : Option String := none
  lastName : Option String := none
  role : Option String := none
deriving DecidableEq, Repr

/-- The Joi schema of UserService.updateUser on the fields above: every
provided field must pass its check. -/
def validateUpdateUser (ev : String → Bool) (d : UpdateUserInput) : Bool :=
  (match d.email with
   | some e => ev e
   | none => true) &&
  (match d.firstName with
   | some s => 2 ≤ s.length && s.length ≤ 50
   | none => true) &&
  (match d.lastName with
   | some s => 2 ≤ s.length && s.length ≤ 50
   | none => true) &&
  (match d.role with
   | some ro => ["user", "admin", "moderator"].contains ro
   | none => true)

/-- UserService.updateUser: validates the input, requires the user to
exist, rejects a changed email that findByEmail already resolves, then
applies the updates through the repository — all inside
executeOperation. -/
def updateUser (ev : String → Bool) (r : InMemoryUserRepository) (now : Nat)
    (id : String) (d : UpdateUserInput) :
    OpResult JObject × InMemoryUserRepository :=
  if !(validateUpdateUser ev d) then
    (executeOperation now (.error { message := "Invalid input data", code := none }), r)
  else
    match r.findById id with
    | none =>
        (executeOperation now (.error { message := "User not found", code := none }), r)
    | some existingUser =>
        let emailTaken : Bool :=
          match d.email with
          | some e => !(e == "") && !(e == existingUser.email) && (r.findByEmail e).isSome
          | none => false
        if emailTaken then
          (executeOperation now
            (.error { message := "Email is already taken", code := none }), r)
        else
          match r.update now id
              { email := d.email, firstName := d.firstName,
                lastName := d.lastName, role := d.role } with
          | none =>
              (executeOperation now
                (.error { message := "Failed to update user", code := none }), r)
          | some (r1, updatedUser) =>
              (executeOperation now (.ok (sanitizeOutput updatedUser.toPublicJSON)), r1)

/-- Outcome of the requireRoles middleware of AuthenticationMiddleware:
pass the request on, or one of its two rejection responses. -/
inductive RoleCheckResult where
  | next
  | authRequired
  | insufficient (requiredRoles : List String) (userRole : String)
deriving DecidableEq, Repr

/-- AuthenticationMiddleware.requireRoles: 401 without an attached user;
403 with the required role list and the actual role when the user role
is not a member of the declared list; otherwise pass. -/
def requireRoles (roles : List String) (reqUser : Option User) : RoleCheckResult :=
  match reqUser with
  | none => .authRequired
  | some u =>
      if !(roles.contains u.role) then .insufficient roles u.role
      else .next

/-- AuthenticationMiddleware.requireAdmin. -/
def requireAdmin (reqUser : Option User) : RoleCheckResult :=
  requireRoles ["admin"] reqUser

/-- AuthenticationMiddleware.requireModerator: the declared role list is
moderator and admin, which is how the admin-covers-moderator hierarchy
is realized. -/
def requireModerator (reqUser : Option User) : RoleCheckResult :=
  requireRoles ["moderator", "admin"] reqUser

/-- The per-closure attempts Map of authRateLimit: source address to the
recorded attempt timestamps (milliseconds). -/
structure RateState where
  attempts : List (String × List Nat)
deriving DecidableEq, Repr

/-- Outcome of one authRateLimit invocation. -/
inductive RateResult where
  | next
  | limited (retryAfter : Nat)
deriving DecidableEq, Repr

/-- One invocation of the middleware returned by
AuthenticationMiddleware.authRateLimit (defaults windowMs = 900000,
max = 5): drops the recorded timestamps at or before now - windowMs
(the subtraction taken in the integers, as in the source), rejects with
429 and retryAfter = ceil(windowMs / 1000) seconds when max or more
remain, and otherwise records the attempt and passes. -/
def authRateLimit (windowMs maxAttempts : Nat) (s : RateState) (ip : String)
    (now : Nat) : RateResult × RateState :=
  let windowStart : Int := (now : Int) - (windowMs : Int)
  let cur : List Nat :=
    ((mapGet s.attempts ip).getD []).filter (fun (t : Nat) => windowStart < (t : Int))
  if maxAttempts ≤ cur.length then
    (.limited ((windowMs + 999) / 1000), { attempts := mapSet s.attempts ip cur })
  else
    (.next, { attempts := mapSet s.attempts ip (cur ++ [now]) })

/-- Repeated invocations of the rate-limit middleware for one source
address at the given times; returns the outcomes and the final state. -/
def runAttempts (windowMs maxAttempts : Nat) (s : RateState) (ip : String) :
    List Nat → List RateResult × RateState
  | [] => ([], s)
  | t :: ts =>
      let (res, s1) := authRateLimit windowMs maxAttempts s ip t
      let (rs, s2) := runAttempts windowMs maxAttempts s1 ip ts
      (res :: rs, s2)

/-! Concrete instances used by the witnesses: a concrete stand-in for
the external Joi email format check, a configuration with and without a
signing secret, and a small store. -/

/-- Concrete instance of the external email format check. -/
def evS : String → Bool := fun s => s.data.any (fun c => c == '@')

/-- Configuration with a signing secret. -/
def cfgS : Config := { jwtSecret := some "test-secret" }

/-- Configuration without a signing secret. -/
def cfgNone : Config := { jwtSecret := none }

/-- An active sample user. -/
def alice : User :=
  { id := "id-alice", email := "alice@example.com",
    password := hashPassword "password123" 1,
    firstName := "Alice", lastName := "Smith", role := "user",
    isEmailVerified := true, isActive := true, lastLoginAt := none,
    createdAt := 0, updatedAt := 0 }

/-- A deactivated sample user. -/
def inga : User :=
  { id := "id-inga", email := "inga@example.com",
    password := hashPassword "password456" 2,
    firstName := "Inga", lastName := "Jones", role := "user",
    isEmailVerified := true, isActive := false, lastLoginAt := none,
    createdAt := 0, updatedAt := 0 }

/-- A sample moderator. -/
def morgan : User :=
  { id := "id-morgan", email := "morgan@example.com",
    password := hashPassword "password789" 3,
    firstName := "Morgan", lastName := "Reed", role := "moderator",
    isEmailVerified := true, isActive := true, lastLoginAt := none,
    createdAt := 0, updatedAt := 0 }

/-- A sample store holding alice and inga, with a consistent email
index. -/
def repoS : InMemoryUserRepository :=
  { users := [("id-alice", alice), ("id-inga", inga)],
    emailIndex := [("alice@example.com", "id-alice"), ("inga@example.com", "id-inga")] }

/-- A sample registration body. -/
def regCarol : RegisterInput :=
  { email := "carol@example.com", password := "password123",
    firstName := "Carol", lastName := "Davis" }

/-- The successful registration result of the C6 witness, written out. -/
def dtaCarol : AuthData :=
  { user := [("email", .str "carol@example.com"),
             ("firstName", .str "Carol"),
             ("lastName", .str "Davis"),
             ("role", .str "user"),
             ("isEmailVerified", .bool false),
             ("lastLoginAt", .null),
             ("fullName", .str "Carol Davis")],
    token := { payload := { userId := "id-carol", email := "carol@example.com",
                            role := "user", iat := 10, exp := 86410 },
               secret := "test-secret", alg := "HS256" },
    expiresIn := "24h" }

/-- A sample foreign token for the C2 witness. -/
def tokS : Token :=
  { payload := { userId := "id-alice", email := "alice@example.com",
                 role := "user", iat := 0, exp := 86400 },
    secret := "test-secret", alg := "HS256" }

/-- A user whose actual password is shorter than 8 characters. -/
def userShort : User :=
  { id := "id-short", email := "short@example.com",
    password := hashPassword "short12" 4,
    firstName := "Shona", lastName := "Tanner", role := "user",
    isEmailVerified := true, isActive := true, lastLoginAt := none,
    createdAt := 0, updatedAt := 0 }

/-- A store holding that user. -/
def repoShort : InMemoryUserRepository :=
  { users := [("id-short", userShort)],
    emailIndex := [("short@example.com", "id-short")] }

/-- The sample user alice after her email was changed by the update
below. -/
def aliceCarol : User :=
  { alice with email := "carol@example.com", updatedAt := 5 }

/-- The store after the public update path changed the email of alice. -/
def repoAfterEmailChange : InMemoryUserRepository :=
  (updateUser evS repoS 5 "id-alice" { email := some "carol@example.com" }).2

/-! Helper lemmas shared by several developments. -/

/-- A sanitized error object always has exactly the fields message, code
and timestamp, in that order. -/
theorem handleError_keys (now : Nat) (e : JsError) :
    (handleError now e).map Prod.fst = ["message", "code", "timestamp"] := rfl

/-- The field names of a sanitized object are among those of the
original object. -/
theorem sanitizeOutput_keys_subset (d : JObject) :
    (sanitizeOutput d).map Prod.fst ⊆ d.map Prod.fst := by
  intro k hk
  rcases List.mem_map.mp hk with ⟨kv, hkv, rfl⟩
  exact List.mem_map.mpr ⟨kv, List.mem_of_mem_filter hkv, rfl⟩

/-- The field names of the public projection of a user. -/
theorem toPublicJSON_keys (u : User) :
    u.toPublicJSON.map Prod.fst =
      ["email", "firstName", "lastName", "role", "isEmailVerified",
       "lastLoginAt", "fullName"] := rfl

/-- No sanitized public projection carries a password or passwordHash
field. -/
theorem sanitized_projection_keys (u : User) (k : String)
    (hk : k ∈ (sanitizeOutput u.toPublicJSON).map Prod.fst) :
    k ∈ ["email", "firstName", "lastName", "role", "isEmailVerified",
         "lastLoginAt", "fullName"] := by
  have h := sanitizeOutput_keys_subset u.toPublicJSON hk
  rwa [toPublicJSON_keys] at h

/-!  C1  -/

/-- C1: for every identity, issuing a token with a configured secret
succeeds, immediately verifying that token succeeds and returns claims
whose subject id, email and role equal those of the issuing identity,
and verifying the same token at any time from 24 hours (the TTL the
source fixes in the payload) after issuance fails with the
expired-token error (the InvalidTokenError kind of the spec). -/
theorem issue_then_verify_roundtrip (cfg : Config) (secret : String)
    (hs : cfg.jwtSecret = some secret) (u : User) (now : Nat) :
    ∃ tok, generateToken cfg now u = .ok tok ∧
      verifyToken cfg now tok = .ok tok.payload ∧
      tok.payload.userId = u.id ∧ tok.payload.email = u.email ∧
      tok.payload.role = u.role ∧
      ∀ later : Nat, now + 60 * 60 * 24 ≤ later →
        verifyToken cfg later tok = .error { message := "jwt expired", code := none } := by
  refine ⟨{ payload := { userId := u.id, email := u.email, role := u.role,
                         iat := now, exp := now + 60 * 60 * 24 },
            secret := secret, alg := "HS256" }, ?_, ?_, rfl, rfl, rfl, ?_⟩
  · simp [generateToken, hs]
  · simp [verifyToken, hs]
  · intro later hlater
    simp [verifyToken, hs, hlater]

/-- Witness for C1 at a concrete identity and time. -/
theorem issue_then_verify_roundtrip_witness :
    ∃ tok, generateToken cfgS 1000 alice = .ok tok ∧
      verifyToken cfgS 1000 tok = .ok tok.payload ∧
      tok.payload.userId = alice.id ∧ tok.payload.email = alice.email ∧
      tok.payload.role = alice.role ∧
      ∀ later : Nat, 1000 + 60 * 60 * 24 ≤ later →
        verifyToken cfgS later tok = .error { message := "jwt expired", code := none } :=
  issue_then_verify_roundtrip cfgS "test-secret" rfl alice 1000

/-!  C7  -/

/-- Whatever the wrapped operation does, the executeOperation boundary
yields a success result or a failure result whose error object has
exactly the fields message, code and timestamp. -/
theorem executeOperation_shape (now : Nat) (op : Except JsError α) :
    (∃ dta, executeOperation now op = .success dta) ∨
    (∃ err, executeOperation now op = .failure err ∧
      err.map Prod.fst = ["message", "code", "timestamp"]) := by
  cases op with
  | ok v => exact .inl ⟨v, rfl⟩
  | error e => exact .inr ⟨handleError now e, rfl, handleError_keys now e⟩

/-- authenticate factors through the executeOperation boundary. -/
theorem authenticate_factors (ev : String → Bool) (cfg : Config)
    (r : InMemoryUserRepository) (now : Nat) (email password : String) :
    ∃ op, (authenticate ev cfg r now email password).1 = executeOperation now op := by
  unfold authenticate
  by_cases h : validateLogin ev email password
  · rcases hls : localStrategy cfg r now email password with ⟨res, r1⟩
    exact ⟨res, by simp [h, hls]⟩
  · exact ⟨.error { message := "Invalid input data", code := none }, by simp [h]⟩

/-- register factors through the executeOperation boundary. -/
theorem register_factors (ev : String → Bool) (cfg : Config)
    (r : InMemoryUserRepository) (now salt : Nat) (newId : String) (d : RegisterInput) :
    ∃ op, (register ev cfg r now salt newId d).1 = executeOperation now op := by
  unfold register
  cases hv : validateRegister ev d with
  | none => exact ⟨.error { message := "Invalid input data", code := none }, rfl⟩
  | some vd =>
      obtain ⟨e1, p1, f1, l1, ro1⟩ := vd
      cases hc : InMemoryUserRepository.create ev r
          { id := newId, email := e1, password := hashPassword p1 salt,
            firstName := f1, lastName := l1, role := ro1,
            isEmailVerified := false, isActive := true, lastLoginAt := none,
            createdAt := now, updatedAt := now } with
      | error e => exact ⟨.error e, by simp [hc]⟩
      | ok pr =>
          obtain ⟨r1, su⟩ := pr
          cases hg : generateToken cfg now su with
          | error e => exact ⟨.error e, by simp [hc, hg]⟩
          | ok tok =>
              exact ⟨.ok { user := sanitizeOutput su.toPublicJSON, token := tok,
                           expiresIn := cfg.expiresInStr }, by simp [hc, hg]⟩

/-- C7: every public engine operation — authenticate, register,
refreshToken — returns a success or failure result value (the
executeOperation boundary catches every thrown error, so nothing
propagates past it), and every failure carries a sanitized error object
with exactly the fields message, code and timestamp. -/
theorem engine_ops_never_throw (ev : String → Bool) (cfg : Config)
    (r : InMemoryUserRepository) (now salt : Nat) (newId : String)
    (email password : String) (d : RegisterInput) (t : Token) :
    (((∃ dta, (authenticate ev cfg r now email password).1 = .success dta) ∨
      (∃ err, (authenticate ev cfg r now email password).1 = .failure err ∧
        err.map Prod.fst = ["message", "code", "timestamp"]))) ∧
    (((∃ dta, (register ev cfg r now salt newId d).1 = .success dta) ∨
      (∃ err, (register ev cfg r now salt newId d).1 = .failure err ∧
        err.map Prod.fst = ["message", "code", "timestamp"]))) ∧
    (((∃ dta, (refreshToken cfg r now t).1 = .success dta) ∨
      (∃ err, (refreshToken cfg r now t).1 = .failure err ∧
        err.map Prod.fst = ["message", "code", "timestamp"]))) := by
  refine ⟨?_, ?_, ?_⟩
  · obtain ⟨op, hop⟩ := authenticate_factors ev cfg r now email password
    rw [hop]; exact executeOperation_shape now op
  · obtain ⟨op, hop⟩ := register_factors ev cfg r now salt newId d
    rw [hop]; exact executeOperation_shape now op
  · rw [show (refreshToken cfg r now t).1 = executeOperation now _ from rfl]
    exact executeOperation_shape now _

/-!  C3  -/

/-- Every credential failure of authenticate — unknown email, inactive
account, wrong password — produces the same failure result. -/
theorem authenticate_invalid_credentials (ev : String → Bool) (cfg : Config)
    (r : InMemoryUserRepository) (now : Nat) (email password : String)
    (hval : validateLogin ev email password = true)
    (hcase : r.findByEmail email = none ∨
      ∃ u, r.findByEmail email = some u ∧
        (u.isActive = false ∨ comparePassword password u.password = false)) :
    (authenticate ev cfg r now email password).1 =
      .failure (handleError now { message := "Invalid credentials", code := none }) := by
  rcases hcase with hnone | ⟨u, hu, hbad⟩
  · simp [authenticate, hval, localStrategy, hnone, executeOperation]
  · rcases hbad with hia | hpw
    · simp [authenticate, hval, localStrategy, hu, hia, executeOperation]
    · by_cases hact : u.isActive
      · simp [authenticate, hval, localStrategy, hu, hact, hpw, executeOperation]
      · simp [authenticate, hval, localStrategy, hu, hact, executeOperation]

/-- C3: an authenticate call on an existing active account with a wrong
password, one on a non-existent email, and one on an inactive account
return failure results that are equal — in particular the error message
and code are identical, leaving no account-enumeration oracle. -/
theorem credential_failures_indistinguishable (ev : String → Bool) (cfg : Config)
    (r : InMemoryUserRepository) (now : Nat)
    (e1 p1 e2 p2 e3 p3 : String) (u1 u3 : User)
    (h1 : validateLogin ev e1 p1 = true)
    (hu1 : r.findByEmail e1 = some u1) (hac : u1.isActive = true)
    (hpw : comparePassword p1 u1.password = false)
    (h2 : validateLogin ev e2 p2 = true) (hu2 : r.findByEmail e2 = none)
    (h3 : validateLogin ev e3 p3 = true)
    (hu3 : r.findByEmail e3 = some u3) (hin : u3.isActive = false) :
    (authenticate ev cfg r now e1 p1).1 = (authenticate ev cfg r now e2 p2).1 ∧
    (authenticate ev cfg r now e2 p2).1 = (authenticate ev cfg r now e3 p3).1 ∧
    (authenticate ev cfg r now e1 p1).1 =
      .failure (handleError now { message := "Invalid credentials", code := none }) := by
  have r1 := authenticate_invalid_credentials ev cfg r now e1 p1 h1
    (.inr ⟨u1, hu1, .inr hpw⟩)
  have r2 := authenticate_invalid_credentials ev cfg r now e2 p2 h2 (.inl hu2)
  have r3 := authenticate_invalid_credentials ev cfg r now e3 p3 h3
    (.inr ⟨u3, hu3, .inl hin⟩)
  exact ⟨r1.trans r2.symm, r2.trans r3.symm, r1⟩

/-- Witness for C3: wrong password for alice, an unknown address, and
the deactivated account inga, against the sample store. -/
theorem credential_failures_indistinguishable_witness :
    (authenticate evS cfgS repoS 10 "alice@example.com" "wrongpass123").1 =
      (authenticate evS cfgS repoS 10 "nobody@example.com" "password123").1 ∧
    (authenticate evS cfgS repoS 10 "nobody@example.com" "password123").1 =
      (authenticate evS cfgS repoS 10 "inga@example.com" "password456x").1 ∧
    (authenticate evS cfgS repoS 10 "alice@example.com" "wrongpass123").1 =
      .failure (handleError 10 { message := "Invalid credentials", code := none }) :=
  credential_failures_indistinguishable evS cfgS repoS 10
    "alice@example.com" "wrongpass123" "nobody@example.com" "password123"
    "inga@example.com" "password456x" alice inga
    (by decide) (by decide) (by decide) (by decide)
    (by decide) (by decide) (by decide) (by decide) (by decide)

/-!  C5  -/

/-- C5: with an authenticated user attached, requireRoles authorizes
exactly when the user role is a member of the declared role list; the
moderator-level check declares the list moderator-and-admin, so admin
satisfies it (the only hierarchy rule); the admin-only check authorizes
admin alone; and on failure the response carries the required role list
and the actual role — in particular an admin-only route with a moderator
user yields required admin, actual moderator. -/
theorem role_check_membership (roles : List String) (u : User) :
    (requireRoles roles (some u) = .next ↔ roles.contains u.role = true) ∧
    (requireRoles roles (some u) ≠ .next →
      requireRoles roles (some u) = .insufficient roles u.role) ∧
    (requireModerator (some u) = .next ↔ (u.role = "moderator" ∨ u.role = "admin")) ∧
    (requireAdmin (some u) = .next ↔ u.role = "admin") ∧
    (u.role = "moderator" → requireAdmin (some u) = .insufficient ["admin"] "moderator") := by
  refine ⟨?_, ?_, ?_, ?_, ?_⟩
  · by_cases h : roles.contains u.role <;> simp [requireRoles, h]
  · by_cases h : roles.contains u.role <;> simp [requireRoles, h]
  · by_cases h1 : u.role = "moderator"
    · simp [requireModerator, requireRoles, h1]
    · by_cases h2 : u.role = "admin" <;>
        simp [requireModerator, requireRoles, h1, h2]
  · by_cases h2 : u.role = "admin" <;> simp [requireAdmin, requireRoles, h2]
  · intro h1
    simp [requireAdmin, requireRoles, h1]

/-- Witness for C5: the moderator morgan passes the moderator-level
check, and on the admin-only check is rejected with required admin,
actual moderator. -/
theorem role_check_membership_witness :
    requireModerator (some morgan) = .next ∧
    requireAdmin (some morgan) = .insufficient ["admin"] "moderator" :=
  ⟨(role_check_membership ["admin"] morgan).2.2.1.mpr (Or.inl rfl),
   (role_check_membership ["admin"] morgan).2.2.2.2 rfl⟩

/-!  C6  -/

/-- A successful registration result carries the sanitized public
projection of the saved user as its identity. -/
theorem register_success_user_shape (ev : String → Bool) (cfg : Config)
    (r : InMemoryUserRepository) (now salt : Nat) (newId : String)
    (d : RegisterInput) (dta : AuthData)
    (h : (register ev cfg r now salt newId d).1 = .success dta) :
    ∃ su : User, dta.user = sanitizeOutput su.toPublicJSON := by
  unfold register at h
  cases hv : validateRegister ev d with
  | none => simp [hv, executeOperation] at h
  | some vd =>
      obtain ⟨e1, p1, f1, l1, ro1⟩ := vd
      simp only [hv] at h
      cases hc : InMemoryUserRepository.create ev r
          { id := newId, email := e1, password := hashPassword p1 salt,
            firstName := f1, lastName := l1, role := ro1,
            isEmailVerified := false, isActive := true, lastLoginAt := none,
            createdAt := now, updatedAt := now } with
      | error e => simp [hc, executeOperation] at h
      | ok pr =>
          obtain ⟨r1, su⟩ := pr
          cases hg : generateToken cfg now su with
          | error e => simp [hc, hg, executeOperation] at h
          | ok tok =>
              refine ⟨su, ?_⟩
              simp [hc, hg, executeOperation] at h
              rw [← h]

/-- C6: the identity projection inside every successful registration
result has neither a password nor a passwordHash field (its fields are
among the seven public ones of toPublicJSON). -/
theorem registered_identity_hides_password (ev : String → Bool) (cfg : Config)
    (r : InMemoryUserRepository) (now salt : Nat) (newId : String)
    (d : RegisterInput) (dta : AuthData)
    (h : (register ev cfg r now salt newId d).1 = .success dta) :
    ¬ "password" ∈ dta.user.map Prod.fst ∧
      ¬ "passwordHash" ∈ dta.user.map Prod.fst := by
  obtain ⟨su, hsu⟩ := register_success_user_shape ev cfg r now salt newId d dta h
  rw [hsu]
  constructor
  · intro hmem
    exact absurd (sanitized_projection_keys su _ hmem) (by decide)
  · intro hmem
    exact absurd (sanitized_projection_keys su _ hmem) (by decide)

/-- Witness for C6 at a concrete successful registration. -/
theorem registered_identity_hides_password_witness :
    ¬ "password" ∈ dtaCarol.user.map Prod.fst ∧
      ¬ "passwordHash" ∈ dtaCarol.user.map Prod.fst :=
  registered_identity_hides_password evS cfgS repoS 10 3 "id-carol" regCarol dtaCarol
    (by decide)

/-!  C2  -/

/-- Counterexample to C2 as stated: with no signing secret configured, a
register call does not propagate the configuration error past the engine
boundary — executeOperation catches it and converts it into an ordinary
failure result whose sanitized error carries the configuration message
(with the generic INTERNAL_ERROR code, since plain Error throws carry no
code property). -/
theorem config_error_converted_to_result_cex :
    (register evS cfgNone repoS 0 7 "id-new" regCarol).1 =
      .failure [("message", .str "JWT_SECRET environment variable is required"),
                ("code", .str "INTERNAL_ERROR"),
                ("timestamp", .num 0)] := by decide

/-- With no signing secret, the local strategy reaches token issuance on
correct credentials and throws the configuration error; on any input it
throws some error. -/
theorem localStrategy_no_secret (cfg : Config) (h : cfg.jwtSecret = none)
    (r : InMemoryUserRepository) (now : Nat) (email password : String) :
    ((∃ u, r.findByEmail email = some u ∧ u.isActive = true ∧
        comparePassword password u.password = true) →
      (localStrategy cfg r now email password).1 =
        .error { message := "JWT_SECRET environment variable is required", code := none }) ∧
    (∃ err, (localStrategy cfg r now email password).1 = .error err) := by
  constructor
  · rintro ⟨u, hu, hact, hcmp⟩
    simp [localStrategy, hu, hact, hcmp, generateToken, h]
  · cases hfe : r.findByEmail email with
    | none =>
        exact ⟨{ message := "Invalid credentials", code := none },
          by simp [localStrategy, hfe]⟩
    | some u =>
        by_cases hact : u.isActive
        · by_cases hcmp : comparePassword password u.password
          · exact ⟨{ message := "JWT_SECRET environment variable is required", code := none },
              by simp [localStrategy, hfe, hact, hcmp, generateToken, h]⟩
          · exact ⟨{ message := "Invalid credentials", code := none },
              by simp [localStrategy, hfe, hact, hcmp]⟩
        · exact ⟨{ message := "Invalid credentials", code := none },
            by simp [localStrategy, hfe, hact]⟩

/-- C2 amended: when no signing secret is configured, every operation
that must sign or verify a token fails — refresh fails immediately with
the configuration message, and authenticate and register can never
succeed, with authenticate on correct credentials failing with the
configuration message — but the ConfigurationError is caught by the
executeOperation boundary and converted into an ordinary failure result;
it does not propagate past the engine boundary. -/
theorem missing_secret_caught_at_boundary (ev : String → Bool) (cfg : Config)
    (r : InMemoryUserRepository) (now salt : Nat) (newId : String)
    (h : cfg.jwtSecret = none) :
    (∀ t : Token, (refreshToken cfg r now t).1 =
        .failure (handleError now
          { message := "JWT_SECRET environment variable is required", code := none })) ∧
    (∀ email password dta, (authenticate ev cfg r now email password).1 ≠ .success dta) ∧
    (∀ d dta, (register ev cfg r now salt newId d).1 ≠ .success dta) ∧
    (∀ email password u, validateLogin ev email password = true →
        r.findByEmail email = some u → u.isActive = true →
        comparePassword password u.password = true →
        (authenticate ev cfg r now email password).1 =
          .failure (handleError now
            { message := "JWT_SECRET environment variable is required", code := none })) := by
  refine ⟨?_, ?_, ?_, ?_⟩
  · intro t
    simp [refreshToken, verifyToken, h, executeOperation]
  · intro email password dta hsucc
    by_cases hval : validateLogin ev email password
    · rcases hls : localStrategy cfg r now email password with ⟨res, r1⟩
      obtain ⟨err, herr⟩ := (localStrategy_no_secret cfg h r now email password).2
      rw [hls] at herr
      simp only at herr
      simp [authenticate, hval, hls, herr, executeOperation] at hsucc
    · simp [authenticate, hval, executeOperation] at hsucc
  · intro d dta hsucc
    unfold register at hsucc
    cases hv : validateRegister ev d with
    | none => simp [hv, executeOperation] at hsucc
    | some vd =>
        obtain ⟨e1, p1, f1, l1, ro1⟩ := vd
        simp only [hv] at hsucc
        cases hc : InMemoryUserRepository.create ev r
            { id := newId, email := e1, password := hashPassword p1 salt,
              firstName := f1, lastName := l1, role := ro1,
              isEmailVerified := false, isActive := true, lastLoginAt := none,
              createdAt := now, updatedAt := now } with
        | error e => simp [hc, executeOperation] at hsucc
        | ok pr =>
            obtain ⟨r1, su⟩ := pr
            simp [hc, generateToken, h, executeOperation] at hsucc
  · intro email password u hval hu hact hcmp
    have hls := (localStrategy_no_secret cfg h r now email password).1 ⟨u, hu, hact, hcmp⟩
    rcases hp : localStrategy cfg r now email password with ⟨res, r1⟩
    rw [hp] at hls
    simp only at hls
    simp [authenticate, hval, hp, hls, executeOperation]

/-- Witness for C2 (amended) at the secretless configuration: refresh
and a correct-credential authenticate both return the caught
configuration failure. -/
theorem missing_secret_caught_at_boundary_witness :
    (refreshToken cfgNone repoS 5 tokS).1 =
      .failure (handleError 5
        { message := "JWT_SECRET environment variable is required", code := none }) ∧
    (authenticate evS cfgNone repoS 5 "alice@example.com" "password123").1 =
      .failure (handleError 5
        { message := "JWT_SECRET environment variable is required", code := none }) :=
  ⟨(missing_secret_caught_at_boundary evS cfgNone repoS 5 0 "id-x" rfl).1 tokS,
   (missing_secret_caught_at_boundary evS cfgNone repoS 5 0 "id-x" rfl).2.2.2
     "alice@example.com" "password123" alice (by decide) (by decide) (by decide) (by decide)⟩

/-!  C10  -/

/-- C10: a password shorter than 8 characters, or an email the format
check rejects, makes authenticate return the validation failure without
consulting the credential store — the result does not depend on the
store and the store is left untouched — and consequently an account
whose actual password is shorter than 8 characters can never
authenticate successfully. -/
theorem short_password_rejected_without_store (ev : String → Bool) (cfg : Config)
    (now : Nat) (email password : String) :
    (∀ r r2 : InMemoryUserRepository,
      password.length < 8 ∨ ev email = false →
        (authenticate ev cfg r now email password).1 =
          .failure (handleError now { message := "Invalid input data", code := none }) ∧
        (authenticate ev cfg r now email password).2 = r ∧
        (authenticate ev cfg r now email password).1 =
          (authenticate ev cfg r2 now email password).1) ∧
    (∀ (r : InMemoryUserRepository) (u : User) (actual : String) (salt : Nat)
        (dta : AuthData),
        r.findByEmail email = some u → u.password = hashPassword actual salt →
        actual.length < 8 →
        (authenticate ev cfg r now email password).1 ≠ .success dta) := by
  constructor
  · intro r r2 hcond
    have hval : validateLogin ev email password = false := by
      rcases hcond with hlen | hev
      · simp [validateLogin, Nat.not_le.mpr hlen]
      · simp [validateLogin, hev]
    exact ⟨by simp [authenticate, hval, executeOperation],
      by simp [authenticate, hval],
      by simp [authenticate, hval]⟩
  · intro r u actual salt dta hu hpw hshort hsucc
    by_cases hval : validateLogin ev email password
    · have h8 : 8 ≤ password.length := by
        simp [validateLogin] at hval
        exact hval.2
      rcases hls : localStrategy cfg r now email password with ⟨res, r1⟩
      by_cases hact : u.isActive
      · by_cases hcmp : comparePassword password u.password
        · have heq : password = actual := by
            simpa [comparePassword, hpw, hashPassword] using hcmp
          rw [heq] at h8
          omega
        · have : res = .error { message := "Invalid credentials", code := none } := by
            have := congrArg Prod.fst hls
            simpa [localStrategy, hu, hact, hcmp] using this.symm
          simp [authenticate, hval, hls, this, executeOperation] at hsucc
      · have : res = .error { message := "Invalid credentials", code := none } := by
          have := congrArg Prod.fst hls
          simpa [localStrategy, hu, hact] using this.symm
        simp [authenticate, hval, hls, this, executeOperation] at hsucc
    · simp [authenticate, hval, executeOperation] at hsucc

/-- Witness for C10: a five-character password is rejected by
validation, and the account with the seven-character actual password can
not log in even with its correct password. -/
theorem short_password_rejected_without_store_witness :
    ((authenticate evS cfgS repoS 99 "alice@example.com" "short").1 =
      .failure (handleError 99 { message := "Invalid input data", code := none })) ∧
    (authenticate evS cfgS repoShort 99 "short@example.com" "short12").1 ≠
      .success dtaCarol :=
  ⟨((short_password_rejected_without_store evS cfgS 99 "alice@example.com" "short").1
      repoS repoS (Or.inl (by decide))).1,
   (short_password_rejected_without_store evS cfgS 99 "short@example.com" "short12").2
      repoShort userShort "short12" 4 dtaCarol (by decide) (by decide) (by decide)⟩

/-!  C9 and C4: the email index after an email-changing update  -/

/-- The guard `updates.email !== user.email` of
InMemoryUserRepository.update runs after the update loop has already
assigned the new email to the user, so it compares the new email with
itself: the email index is never touched by update, whatever the
updates are. -/
theorem update_never_touches_email_index (r : InMemoryUserRepository) (now : Nat)
    (id : String) (upd : InMemoryUserRepository.Updates)
    (r1 : InMemoryUserRepository) (u1 : User)
    (h : InMemoryUserRepository.update r now id upd = some (r1, u1)) :
    r1.emailIndex = r.emailIndex := by
  unfold InMemoryUserRepository.update at h
  cases hf : r.findById id with
  | none => rw [hf] at h; simp at h
  | some user0 =>
      rw [hf] at h
      cases hupd : upd.email with
      | none =>
          simp only [hupd, Option.some.injEq, Prod.mk.injEq] at h
          rw [← h.1]
      | some e =>
          have heq : (InMemoryUserRepository.applyUpdates user0 upd).email = e := by
            simp [InMemoryUserRepository.applyUpdates, hupd]
          simp only [hupd, heq, beq_self_eq_true, Bool.not_true, Bool.and_false,
            Bool.false_eq_true, if_false, Option.some.injEq, Prod.mk.injEq] at h
          rw [← h.1]

/-- C9 (violated by the code): updating the email of alice from
alice at example.com to carol at example.com succeeds and changes her
stored email, yet afterwards find-by-email with her current email
returns null while find-by-email with her old email still returns her —
the email index was not updated. -/
theorem email_index_stale_after_update_bug :
    InMemoryUserRepository.update repoS 5 "id-alice"
        { email := some "carol@example.com" } =
      some ({ users := [("id-alice", aliceCarol), ("id-inga", inga)],
              emailIndex := [("alice@example.com", "id-alice"),
                             ("inga@example.com", "id-inga")] }, aliceCarol) ∧
    aliceCarol.email = "carol@example.com" ∧
    InMemoryUserRepository.findByEmail
      { users := [("id-alice", aliceCarol), ("id-inga", inga)],
        emailIndex := [("alice@example.com", "id-alice"),
                       ("inga@example.com", "id-inga")] } "carol@example.com" = none ∧
    (InMemoryUserRepository.findByEmail
      { users := [("id-alice", aliceCarol), ("id-inga", inga)],
        emailIndex := [("alice@example.com", "id-alice"),
                       ("inga@example.com", "id-inga")] } "alice@example.com").map
      User.email = some "carol@example.com" := by
  refine ⟨by decide, by decide, by decide, by decide⟩

/-- C4 (violated by the code): after the service-level updateUser
changes the email of alice to carol at example.com — a store state in
which alice holds the normalized email carol at example.com —
registering that very email succeeds instead of failing with the
duplicate-email error, leaving two stored users with the same current
email. -/
theorem duplicate_email_admitted_after_update_bug :
    ((updateUser evS repoS 5 "id-alice" { email := some "carol@example.com" }).1 =
      .success (sanitizeOutput aliceCarol.toPublicJSON)) ∧
    ((repoAfterEmailChange.findById "id-alice").map User.email =
      some "carol@example.com") ∧
    ((register evS cfgS repoAfterEmailChange 10 3 "id-carol" regCarol).1 =
      .success dtaCarol) ∧
    (((register evS cfgS repoAfterEmailChange 10 3 "id-carol" regCarol).2.findById
        "id-alice").map User.email = some "carol@example.com") ∧
    (((register evS cfgS repoAfterEmailChange 10 3 "id-carol" regCarol).2.findById
        "id-carol").map User.email = some "carol@example.com") := by
  refine ⟨by decide, by decide, by decide, by decide, by decide⟩

/-!  C8  -/

/-- First attempt from a source unknown to the limiter passes (whenever
at least one attempt is allowed at all) and is recorded. -/
theorem authRateLimit_first (w maxA : Nat) (ip : String) (t : Nat) (h : 0 < maxA) :
    authRateLimit w maxA ⟨[]⟩ ip t = (.next, ⟨[(ip, [t])]⟩) := by
  simp [authRateLimit, mapGet, mapSet, Nat.not_le.mpr h]

/-- A step whose recorded attempts all lie inside the window keeps them
all; if fewer than the maximum are recorded the attempt passes and is
appended. -/
theorem authRateLimit_step_allowed (w maxA : Nat) (ip : String) (pre : List Nat)
    (t : Nat) (hkeep : ∀ x ∈ pre, (t : Int) - (w : Int) < (x : Int))
    (hlen : pre.length < maxA) :
    authRateLimit w maxA ⟨[(ip, pre)]⟩ ip t = (.next, ⟨[(ip, pre ++ [t])]⟩) := by
  have hf : pre.filter (fun (x : Nat) => decide ((t : Int) - (w : Int) < (x : Int))) = pre := by
    rw [List.filter_eq_self]
    intro a ha
    simpa using hkeep a ha
  simp [authRateLimit, mapGet, mapSet, hf, Nat.not_le.mpr hlen]

/-- A step whose recorded attempts all lie inside the window and reach
the maximum is rejected with the retry-after hint. -/
theorem authRateLimit_step_limited (w maxA : Nat) (ip : String) (pre : List Nat)
    (t : Nat) (hkeep : ∀ x ∈ pre, (t : Int) - (w : Int) < (x : Int))
    (hlen : maxA ≤ pre.length) :
    authRateLimit w maxA ⟨[(ip, pre)]⟩ ip t =
      (.limited ((w + 999) / 1000), ⟨[(ip, pre)]⟩) := by
  have hf : pre.filter (fun (x : Nat) => decide ((t : Int) - (w : Int) < (x : Int))) = pre := by
    rw [List.filter_eq_self]
    intro a ha
    simpa using hkeep a ha
  simp [authRateLimit, mapGet, mapSet, hf, hlen]

/-- Running attempts that all lie inside the window of a later instant
tn, starting from an in-window record, allows them all and records them
in order. -/
theorem runAttempts_in_window (windowMs maxA : Nat) (ip : String) (tn : Nat) :
    ∀ (ts pre : List Nat),
      (∀ t ∈ pre, (tn : Int) - (windowMs : Int) < (t : Int)) →
      (∀ t ∈ ts, t ≤ tn ∧ (tn : Int) - (windowMs : Int) < (t : Int)) →
      pre.length + ts.length ≤ maxA →
      runAttempts windowMs maxA ⟨[(ip, pre)]⟩ ip ts =
        (List.replicate ts.length .next, ⟨[(ip, pre ++ ts)]⟩) := by
  intro ts
  induction ts with
  | nil =>
      intro pre hpre hts hlen
      simp [runAttempts]
  | cons t ts ih =>
      intro pre hpre hts hlen
      have hstep := authRateLimit_step_allowed windowMs maxA ip pre t
        (fun x hx => by
          have h1 := hpre x hx
          have h2 := (hts t (List.mem_cons_self t ts)).1
          omega)
        (by simp at hlen; omega)
      have hrest := ih (pre ++ [t])
        (fun x hx => by
          rcases List.mem_append.mp hx with hx1 | hx2
          · exact hpre x hx1
          · rcases List.mem_singleton.mp hx2 with rfl
            exact (hts x (List.mem_cons_self x ts)).2)
        (fun x hx => hts x (List.mem_cons_of_mem t hx))
        (by simp at hlen ⊢; omega)
      simp only [runAttempts, hstep, hrest, List.append_assoc, List.singleton_append,
        List.length_cons, List.replicate_succ]

/-- C8: the rate limiter of the authentication endpoints keeps a sliding
window of attempt timestamps per source address. Starting from an empty
state, max attempts all inside the window of a later instant tn are all
allowed, and the following attempt at tn — the (max+1)-th whose
predecessors all fall inside the window — is rejected with the
retry-after hint of ceil(windowMs/1000) seconds; moreover recorded
attempts at or beyond the window age (older than the window) are
discarded before counting: a step behaves identically whether or not
the out-of-window timestamps are first removed from the record. -/
theorem sliding_window_rate_limit (windowMs maxA : Nat) (ip : String)
    (ts : List Nat) (tn : Nat)
    (hlen : ts.length = maxA)
    (hts : ∀ t ∈ ts, t ≤ tn ∧ (tn : Int) - (windowMs : Int) < (t : Int)) :
    (runAttempts windowMs maxA ⟨[]⟩ ip ts).1 = List.replicate maxA .next ∧
    (authRateLimit windowMs maxA (runAttempts windowMs maxA ⟨[]⟩ ip ts).2 ip tn).1 =
      .limited ((windowMs + 999) / 1000) ∧
    (∀ (l : List Nat) (t2 : Nat),
      authRateLimit windowMs maxA ⟨[(ip, l)]⟩ ip t2 =
        authRateLimit windowMs maxA
          ⟨[(ip, l.filter (fun (x : Nat) => (t2 : Int) - (windowMs : Int) < (x : Int)))]⟩
          ip t2) := by
  cases ts with
  | nil =>
      have hm : maxA = 0 := by simpa using hlen.symm
      subst hm
      refine ⟨by simp [runAttempts], ?_, ?_⟩
      · simp [runAttempts, authRateLimit, mapGet, mapSet]
      · intro l t2
        simp [authRateLimit, mapGet, mapSet, List.filter_filter]
  | cons t ts' =>
      have hpos : 0 < maxA := by rw [← hlen]; simp
      have hfirst := authRateLimit_first windowMs maxA ip t hpos
      have hrest := runAttempts_in_window windowMs maxA ip tn ts' [t]
        (fun x hx => by
          rcases List.mem_singleton.mp hx with rfl
          exact (hts x (List.mem_cons_self x ts')).2)
        (fun x hx => hts x (List.mem_cons_of_mem t hx))
        (by rw [← hlen]; simp; omega)
      have hrun : runAttempts windowMs maxA ⟨[]⟩ ip (t :: ts') =
          (List.replicate maxA .next, ⟨[(ip, t :: ts')]⟩) := by
        simp only [runAttempts, hfirst, hrest, List.singleton_append]
        rw [← hlen]
        simp [List.replicate_succ]
      refine ⟨by rw [hrun], ?_, ?_⟩
      · rw [hrun]
        have hlim := authRateLimit_step_limited windowMs maxA ip (t :: ts') tn
          (fun x hx => (hts x hx).2) (le_of_eq hlen.symm)
        rw [hlim]
      · intro l t2
        simp [authRateLimit, mapGet, mapSet, List.filter_filter]

/-- Witness for C8 with the default window of 900000 ms and maximum 5:
five attempts within the window all pass and the sixth is rejected with
a 900 second retry-after hint. -/
theorem sliding_window_rate_limit_witness :
    (runAttempts 900000 5 ⟨[]⟩ "1.2.3.4" [1000, 2000, 3000, 4000, 5000]).1 =
      List.replicate 5 .next ∧
    (authRateLimit 900000 5
        (runAttempts 900000 5 ⟨[]⟩ "1.2.3.4" [1000, 2000, 3000, 4000, 5000]).2
        "1.2.3.4" 6000).1 = .limited ((900000 + 999) / 1000) ∧
    (∀ (l : List Nat) (t2 : Nat),
      authRateLimit 900000 5 ⟨[("1.2.3.4", l)]⟩ "1.2.3.4" t2 =
        authRateLimit 900000 5
          ⟨[("1.2.3.4", l.filter (fun (x : Nat) => (t2 : Int) - (900000 : Int) < (x : Int)))]⟩
          "1.2.3.4" t2) :=
  sliding_window_rate_limit 900000 5 "1.2.3.4" [1000, 2000, 3000, 4000, 5000] 6000
    (by decide) (by decide)

end NodeBackend
